import Mathlib

/-!
Verification of the YouTube playlist-generation subsystem of the
ENHANCED-CLI-TOOLKIT repository.

This file gives a shallow embedding, in Lean 4, of the core operations of
`src/modules/youtube_manager.py` and `src/modules/quota_tracker.py`:

* Python strings are Lean `String`; the Python substring test `a in b` is
  modelled by `pyIn` (contiguous substring, case sensitive, empty needle
  matches).
* Python `int` values are `Int` (or `Nat` where the source can only produce
  non-negative values, e.g. parsed durations).
* Wall-clock instants (`datetime.now()`, ISO timestamps) are modelled as
  integer seconds; calendar days in the quota tracker are integer day
  numbers; `timedelta(days=1)` subtraction is day-number decrement.
* Stateful methods become explicit state-passing functions; the mutable
  fields of `YouTubeManager` (quota counters, the details cache) are fields
  of an explicit state record, and remote I/O (the YouTube endpoints) is a
  pure oracle parameter.  Every remote request the code would issue is
  appended to an explicit call log, so that claims about which remote calls
  happen are statable.
* `random.sample` over the search terms is external nondeterminism: the
  sampled term list is a parameter of the search model.
* Fallible paths return `Option`; an uncaught Python exception (the
  IndexError reachable in `rotate_api_key`) is the `none` outcome of the
  rotation model.
-/

/-- Python substring search over char lists: `subSearch n h = true` iff `n`
occurs contiguously in `h` (an empty needle always occurs). -/
def subSearch (needle : List Char) : List Char → Bool
  | [] => needle.isEmpty
  | c :: rest => needle.isPrefixOf (c :: rest) || subSearch needle rest

/-- The Python expression `needle in hay` on strings. -/
def pyIn (needle hay : String) : Bool :=
  subSearch needle.data hay.data

/-- Python `str.lower()` (ASCII range, which covers every string the code
lowercases). -/
def pyLower (s : String) : String :=
  String.mk (s.data.map Char.toLower)

/-- Python `str.strip("PT")`: remove leading and trailing characters that are
members of the set so long as they keep matching.
Transcribes the use at youtube_manager.py line 230. -/
def stripPT (s : String) : String :=
  String.mk
    (((s.data.dropWhile (fun c => c == 'P' || c == 'T')).reverse.dropWhile
        (fun c => c == 'P' || c == 'T')).reverse)

/-- Parser state of `parse_iso8601_duration`: the three components plus the
pending digit accumulator (`none` models the empty Python string `num`,
`some n` a non-empty digit string of value `n`). -/
structure DurState where
  hours : Nat
  minutes : Nat
  seconds : Nat
  num : Option Nat
  deriving DecidableEq

/-- One character step of the `for ch in dur` loop of
`parse_iso8601_duration` (youtube_manager.py lines 232-242). -/
def durStep (st : DurState) (c : Char) : DurState :=
  if c.isDigit then
    { st with num := some (10 * st.num.getD 0 + (c.toNat - 48)) }
  else if c = 'H' then
    { st with hours := st.num.getD 0, num := none }
  else if c = 'M' then
    { st with minutes := st.num.getD 0, num := none }
  else if c = 'S' then
    { st with seconds := st.num.getD 0, num := none }
  else
    { st with num := none }

/-- Model of `YouTubeManager.parse_iso8601_duration` (youtube_manager.py lines
227-243): strip `P`/`T` from both ends, run the accumulator loop, and
return `hours*3600 + minutes*60 + seconds`. -/
def parse_iso8601_duration (dur : String) : Nat :=
  let st := (stripPT dur).data.foldl durStep ⟨0, 0, 0, none⟩
  st.hours * 3600 + st.minutes * 60 + st.seconds

/-- Value of a decimal digit string continued from accumulator `a`
(the semantics of Python `int` on the digit string `num`). -/
def digitsValFrom (a : Nat) (l : List Char) : Nat :=
  l.foldl (fun acc c => 10 * acc + (c.toNat - 48)) a

/-- Value of a decimal digit string. -/
def digitsVal (l : List Char) : Nat := digitsValFrom 0 l

/-- Builds an ISO-8601 duration string of the shape covered by claim C10:
`PT` followed by an optional hours component, optional minutes component and
optional seconds component (flag = presence, list = decimal digits). -/
def mkDuration (bh : Bool) (dh : List Char) (bm : Bool) (dm : List Char)
    (bs : Bool) (ds : List Char) : String :=
  String.mk ('P' :: 'T' ::
    ((cond bh (dh ++ ['H']) []) ++ (cond bm (dm ++ ['M']) []) ++
      (cond bs (ds ++ ['S']) [])))

/-- Model of `YouTubeManager.create_youtube_playlist_url` (youtube_manager.py lines
458-467). -/
def create_youtube_playlist_url (video_ids : List String) : String :=
  if video_ids.length = 0 then ""
  else if 1 < video_ids.length then
    "https://www.youtube.com/watch_videos?video_ids=" ++
      String.intercalate "," video_ids
  else
    "https://www.youtube.com/watch?v=" ++ video_ids.headD ""

/-! ### Quota tracker (src/modules/quota_tracker.py)

The ledger `quota_data` maps a credential and a calendar day to the
accumulated cost; absent keys and absent day buckets read as 0, which the
total-function model absorbs. -/

/-- The quota ledger: credential, day number, accumulated cost. -/
def QuotaData : Type := String → Int → Int

/-- Model of `QuotaTracker.record_usage` (quota_tracker.py lines 27-38): add `cost`
to the bucket of (`api_key`, `today`), creating it from 0 when absent. -/
def record_usage (data : QuotaData) (api_key : String) (cost : Int)
    (today : Int) : QuotaData :=
  fun k d => if k = api_key ∧ d = today then data k d + cost else data k d

/-- Model of `QuotaTracker.get_usage` (quota_tracker.py lines 40-53): sum the
buckets of `today`, `today - 1`, ..., `today - (days - 1)`. -/
def get_usage (data : QuotaData) (api_key : String) (today : Int)
    (days : Nat) : Int :=
  (List.range days).foldl
    (fun (acc : Int) (i : Nat) => acc + data api_key (today - (i : Int))) 0

/-- A sequence of `record_usage` calls with the given costs, all against the
same credential and day. -/
def recordAll (data : QuotaData) (api_key : String) (costs : List Int)
    (today : Int) : QuotaData :=
  costs.foldl (fun d c => record_usage d api_key c today) data

/-! ### check_quota (youtube_manager.py lines 335-353)

The cache fields `last_quota_reset` and `quota_used` form the quota state;
instants are integer seconds. -/

/-- The quota-relevant fields of the YouTubeManager cache. -/
structure QuotaState where
  lastReset : Int
  quotaUsed : Int
  deriving DecidableEq

/-- Model of `YouTubeManager.check_quota` (youtube_manager.py lines 335-353):
reset after 24 hours, otherwise admit the request only below the 9,500
soft ceiling, charging `unitsNeeded` on success. -/
def check_quota (st : QuotaState) (now : Int) (unitsNeeded : Int) :
    Bool × QuotaState :=
  if 24 * 60 * 60 ≤ now - st.lastReset then
    (true, ⟨now, 0⟩)
  else if 9500 < st.quotaUsed + unitsNeeded then
    (false, st)
  else
    (true, { st with quotaUsed := st.quotaUsed + unitsNeeded })

/-! ### Playlist / search configuration (youtube_manager.py lines 22-40)

Only the fields the search filters consult are carried. -/

/-- Model of `PlaylistConfig` with the `__post_init__` defaults. -/
structure PlaylistConfig where
  min_duration_seconds : Nat := 180
  max_duration_seconds : Nat := 3650
  exclude_keywords : List String :=
    ["hindi", "bollywood", "tamil", "telugu", "punjabi", "bhojpuri"]
  include_keywords : List String :=
    ["pop", "urban", "RnB", "mixes", "hiphop", "kenyan rnb", "Russian trap",
     "afrobeat", "afropop", "reggae", "kikuyu gospel"]

/-- The `music_indicators` literal of `smart_search` (youtube_manager.py
lines 439-441). -/
def music_indicators : List String :=
  ["music", "song", "audio", "track", "hit", "mix",
   "official", "video", "cover", "remix", "live", "acoustic",
   "extended", "hour", "playlist", "compilation"]

/-- The `exclude_keywords` test of youtube_manager.py line 436:
`any(exc in title for exc in self.config.exclude_keywords)`. -/
def hasExcludedKeyword (cfg : PlaylistConfig) (title : String) : Bool :=
  cfg.exclude_keywords.any (fun exc => pyIn exc title)

/-- Include-or-music-indicator test of youtube_manager.py lines 442-443. -/
def hasIncludeOrIndicator (cfg : PlaylistConfig) (title : String) : Bool :=
  cfg.include_keywords.any (fun inc => pyIn inc title) ||
    music_indicators.any (fun ind => pyIn ind title)

/-! ### Search engine state and remote-call model -/

/-- The fields of a video-details record built at youtube_manager.py lines
296-302. -/
structure VideoDetails where
  duration : Nat
  title : String
  viewCount : Int
  likeCount : Int
  commentCount : Int
  deriving DecidableEq

/-- A remote YouTube Data API request the code issues. -/
inductive RemoteCall where
  | searchList (term order : String)
  | videosList (videoId : String)
  deriving DecidableEq

/-- The cache lifetime, `self.cache_duration = 24 * 60 * 60` seconds. -/
def cache_duration : Int := 24 * 60 * 60

/-- The shared cache read shape (youtube_manager.py lines 274-278, 358-362
and 849-856): an entry is a value plus a creation timestamp, returned only
while `now - timestamp < cache_duration`; an absent or expired entry reads
as `none` and the caller falls through to the fetch path. -/
def lookupValid {α : Type} (c : String → Option (α × Int)) (key : String)
    (now : Int) : Option α :=
  match c key with
  | some (v, ts) => if now - ts < cache_duration then some v else none
  | none => none

/-- The error-recovery cache read of youtube_manager.py lines 1019-1024:
the entry is used whenever the key is present, with no timestamp check. -/
def fallbackCacheLookup {α : Type} (c : String → Option (α × Int))
    (key : String) : Option α :=
  (c key).map (fun e => e.1)

/-- Per-run immutable environment of the search paths: configuration, the
used-videos ledger loaded at run start, the two remote endpoints as oracles
(`detailsOracle v = none` models an empty or failed details response), the
wall clock and the target count. -/
structure SearchEnv where
  cfg : PlaylistConfig
  usedVideos : List String
  searchOracle : String → String → List String
  detailsOracle : String → Option VideoDetails
  now : Int
  maxResults : Nat

/-- Mutable state threaded through a search run: the accumulated accepted
ids (`all_video_ids` / `video_ids`), the quota fields of the cache, the
`video_details_cache` namespace, and the chronological remote-call log. -/
structure SearchState where
  acc : List String
  quota : QuotaState
  detailsCache : String → Option (VideoDetails × Int)
  log : List RemoteCall

/-- Model of `YouTubeManager.get_video_details` (youtube_manager.py lines 271-313):
cache-first, then quota gate (returning `none` without a remote call on
failure), then the remote fetch, caching a successful response. -/
def get_video_details (env : SearchEnv) (st : SearchState) (vid : String) :
    Option VideoDetails × SearchState :=
  match lookupValid st.detailsCache vid env.now with
  | some d => (some d, st)
  | none =>
    match check_quota st.quota env.now 1 with
    | (false, q) => (none, { st with quota := q })
    | (true, q) =>
      let st1 : SearchState :=
        { st with quota := q, log := st.log ++ [RemoteCall.videosList vid] }
      match env.detailsOracle vid with
      | none => (none, st1)
      | some d =>
        (some d,
         { st1 with detailsCache :=
            fun k => if k = vid then some (d, env.now)
                     else st1.detailsCache k })

/-- Candidate loop of `smart_search` (youtube_manager.py lines 419-447):
dedup against the ledger and the run accumulator, fetch details, then the
duration / exclude / include-or-indicator filters; `break` once
`maxResults` is reached. -/
def processItems (env : SearchEnv) (items : List String)
    (st : SearchState) : SearchState :=
  match items with
  | [] => st
  | vid :: rest =>
    if env.maxResults ≤ st.acc.length then st
    else if vid ∈ env.usedVideos ∨ vid ∈ st.acc then
      processItems env rest st
    else
      match get_video_details env st vid with
      | (none, st1) => processItems env rest st1
      | (some d, st1) =>
        if d.duration < env.cfg.min_duration_seconds then
          processItems env rest st1
        else if hasExcludedKeyword env.cfg d.title then
          processItems env rest st1
        else if ¬ hasIncludeOrIndicator env.cfg d.title then
          processItems env rest st1
        else
          processItems env rest { st1 with acc := st1.acc ++ [vid] }

/-- The fixed ranking orders of youtube_manager.py line 404. -/
def searchOrders : List String := ["relevance", "viewCount", "date", "rating"]

/-- Order loop of `smart_search` (youtube_manager.py lines 404-449): per
order one remote `search().list` call (not quota gated), then the candidate
loop. -/
def processOrders (env : SearchEnv) (term : String) (orders : List String)
    (st : SearchState) : SearchState :=
  match orders with
  | [] => st
  | o :: rest =>
    if env.maxResults ≤ st.acc.length then st
    else
      let st1 : SearchState :=
        { st with log := st.log ++ [RemoteCall.searchList term o] }
      let st2 := processItems env (env.searchOracle term o) st1
      processOrders env term rest st2

/-- Term loop of `smart_search` (youtube_manager.py lines 399-454). -/
def processTerms (env : SearchEnv) (terms : List String)
    (st : SearchState) : SearchState :=
  match terms with
  | [] => st
  | t :: rest =>
    if env.maxResults ≤ st.acc.length then st
    else processTerms env rest (processOrders env t searchOrders st)

/-- Model of `YouTubeManager.smart_search` (youtube_manager.py lines 390-456) run on
an already-sampled term list; the result list is the final `acc`. -/
def smart_search (env : SearchEnv) (terms : List String)
    (st : SearchState) : SearchState :=
  processTerms env terms st

/-- Result-processing loop of the advanced single-term search
(youtube_manager.py lines 887-923): cache-first details, an extra quota
gate that breaks the loop on failure, the user-chosen duration bucket
(`maxD = none` is the unbounded bucket), append on acceptance, and a break
once 50 ids are accumulated.  The used-videos ledger is never consulted. -/
def advancedProcess (env : SearchEnv) (minD : Nat) (maxD : Option Nat)
    (items : List String) (st : SearchState) : SearchState :=
  match items with
  | [] => st
  | vid :: rest =>
    let fetched : Option VideoDetails × SearchState × Bool :=
      match lookupValid st.detailsCache vid env.now with
      | some d => (some d, st, false)
      | none =>
        match check_quota st.quota env.now 1 with
        | (false, q) => (none, { st with quota := q }, true)
        | (true, q) =>
          let r := get_video_details env { st with quota := q } vid
          (r.1, r.2, false)
    match fetched with
    | (_, st1, true) => st1
    | (none, st1, false) => advancedProcess env minD maxD rest st1
    | (some d, st1, false) =>
      let st2 : SearchState :=
        if minD ≤ d.duration ∧ ∀ m ∈ maxD, d.duration ≤ m then
          { st1 with acc := st1.acc ++ [vid] }
        else st1
      if 50 ≤ st2.acc.length then st2
      else advancedProcess env minD maxD rest st2

/-! ### Key rotation (youtube_manager.py lines 75-142) -/

/-- Classification of a probe outcome, following the `except` chain of
`rotate_api_key`: success, then the quota text indicator (checked first),
then the invalid text indicator, else any other error. -/
inductive ProbeKind where
  | working
  | quotaErr
  | invalidErr
  | otherErr
  deriving DecidableEq

/-- Error-text classification of youtube_manager.py lines 114-130. -/
def classifyError (e : String) : ProbeKind :=
  if pyIn "quota" (pyLower e) then ProbeKind.quotaErr
  else if pyIn "invalid" (pyLower e) then ProbeKind.invalidErr
  else ProbeKind.otherErr

/-- Outcome of probing one credential: `probe k = none` is a successful
minimal search call, `some e` an error with text `e`. -/
def probeKind (probe : String → Option String) (k : String) : ProbeKind :=
  match probe k with
  | none => ProbeKind.working
  | some e => classifyError e

/-- How the rotation loop ended. -/
inductive RotateStatus where
  | success
  | noKeys
  | ringExhausted
  | fuelOut
  deriving DecidableEq

/-- Loop-exit snapshot: credential list, current index, the `keys_tried`
set (as an insertion-ordered list) and the exit status. -/
structure RotateOutcome where
  keys : List String
  idx : Nat
  tried : List String
  status : RotateStatus
  deriving DecidableEq

/-- The `while len(keys_tried) < len(self.api_keys)` loop of
`rotate_api_key` (youtube_manager.py lines 85-133).  Each iteration
advances the index modulo the current list length, skips already-tried
keys, probes a fresh key, and on an invalid-classified error pops the key
at the current index (returning `noKeys` when the list empties, else
re-normalising the index modulo the new length).  `fuel` bounds the
iteration count; `fuelOut` marks an undecided (cut-off) run. -/
def rotateLoop (probe : String → Option String) :
    Nat → List String → Nat → List String → RotateOutcome
  | 0, keys, idx, tried => ⟨keys, idx, tried, RotateStatus.fuelOut⟩
  | fuel + 1, keys, idx, tried =>
    if tried.length < keys.length then
      let idx1 := (idx + 1) % keys.length
      let key := keys.getD idx1 ""
      if key ∈ tried then
        rotateLoop probe fuel keys idx1 tried
      else
        let tried1 := tried ++ [key]
        if probeKind probe key = ProbeKind.working then
          ⟨keys, idx1, tried1, RotateStatus.success⟩
        else if probeKind probe key = ProbeKind.invalidErr then
          let keys1 := keys.eraseIdx idx1
          if keys1.length = 0 then
            ⟨keys1, idx1, tried1, RotateStatus.noKeys⟩
          else
            rotateLoop probe fuel keys1 (idx1 % keys1.length) tried1
        else
          rotateLoop probe fuel keys idx1 tried1
    else
      ⟨keys, idx, tried, RotateStatus.ringExhausted⟩

/-- Final state of a `rotate_api_key` call.  `ok = some b` is the boolean
return value; `ok = none` models an uncaught exception: the IndexError
raised when `_build_youtube_client` indexes `api_keys[current_key_index]`
out of bounds, or a cut-off (out-of-fuel) run. -/
structure RotateRes where
  keys : List String
  idx : Nat
  tried : List String
  ok : Option Bool
  deriving DecidableEq

/-- Model of `YouTubeManager.rotate_api_key` (youtube_manager.py lines 75-142):
single-key lists return `False` untouched; otherwise run the ring loop; on
total failure restore the original index and rebuild the client — an
access `api_keys[original_index]` that raises IndexError whenever removals
left the list shorter than that index. -/
def rotate_api_key (probe : String → Option String) (fuel : Nat)
    (keys : List String) (idx : Nat) : RotateRes :=
  if keys.length ≤ 1 then ⟨keys, idx, [], some false⟩
  else
    let r := rotateLoop probe fuel keys idx []
    if r.status = RotateStatus.success then ⟨r.keys, r.idx, r.tried, some true⟩
    else if r.status = RotateStatus.noKeys then
      ⟨r.keys, r.idx, r.tried, some false⟩
    else if r.status = RotateStatus.ringExhausted then
      if idx < r.keys.length then ⟨r.keys, idx, r.tried, some false⟩
      else ⟨r.keys, idx, r.tried, none⟩
    else ⟨r.keys, r.idx, r.tried, none⟩

/-! ### Concrete inputs used by counterexamples and witnesses -/

/-- An empty-cache, zero-quota run state. -/
def stEmpty : SearchState :=
  { acc := [], quota := ⟨0, 0⟩, detailsCache := fun _ => none, log := [] }

/-- C1 candidate details: a music video titled with an excluded language
word in title case. -/
def detailsC1 : VideoDetails := ⟨200, "Hindi Remix Hits", 1000, 10, 0⟩

/-- C1 environment: default configuration (exclude list containing
"hindi"), empty ledger, one remote candidate `hv` titled
"Hindi Remix Hits". -/
def envC1 : SearchEnv :=
  { cfg := {}
    usedVideos := []
    searchOracle := fun t o =>
      if t = "music" ∧ o = "relevance" then ["hv"] else []
    detailsOracle := fun v => if v = "hv" then some detailsC1 else none
    now := 1000
    maxResults := 5 }

/-- C1 witness environment: candidate `bad` whose title contains the
excluded keyword "hindi" in lower case (so even the case-sensitive test
matches). -/
def envC1w : SearchEnv :=
  { cfg := {}
    usedVideos := []
    searchOracle := fun _ _ => ["bad"]
    detailsOracle := fun v =>
      if v = "bad" then some ⟨200, "hindi song mix", 7, 1, 0⟩ else none
    now := 1000
    maxResults := 5 }

/-- C2 witness environment: the ledger holds `u`, and the remote search
returns `u` with details that pass every content filter. -/
def envC2w : SearchEnv :=
  { cfg := {}
    usedVideos := ["u"]
    searchOracle := fun _ _ => ["u"]
    detailsOracle := fun v =>
      if v = "u" then some ⟨200, "pop music", 9, 2, 0⟩ else none
    now := 1000
    maxResults := 5 }

/-- C2 counterexample details for the used video `u1`. -/
def detailsC2 : VideoDetails := ⟨300, "anything", 5, 1, 0⟩

/-- C2 counterexample environment: `u1` is in the used-videos ledger. -/
def envC2 : SearchEnv :=
  { cfg := {}
    usedVideos := ["u1"]
    searchOracle := fun _ _ => []
    detailsOracle := fun _ => none
    now := 1000
    maxResults := 50 }

/-- C2 counterexample state: the advanced search has a fresh cached details
record for `u1` (cached 100 seconds ago). -/
def stC2 : SearchState :=
  { acc := [], quota := ⟨0, 0⟩
    detailsCache := fun k => if k = "u1" then some (detailsC2, 900) else none
    log := [] }

/-- C4 counterexample details: pass every content filter. -/
def detailsC4 : VideoDetails := ⟨200, "pop music mix", 1000, 10, 0⟩

/-- C4 counterexample environment: term `t1`, order `relevance` returns two
candidates; every other remote search page is empty. -/
def envC4 : SearchEnv :=
  { cfg := {}
    usedVideos := []
    searchOracle := fun t o =>
      if t = "t1" ∧ o = "relevance" then ["v1", "v2"] else []
    detailsOracle := fun _ => some detailsC4
    now := 1000
    maxResults := 10 }

/-- C4 counterexample state: 9,499 quota units already used, so the soft
ceiling is crossed right after one details call succeeds. -/
def stC4 : SearchState :=
  { acc := [], quota := ⟨0, 9499⟩, detailsCache := fun _ => none, log := [] }

/-- C4 witness state: quota already exhausted, one item `x` accepted. -/
def stC4w : SearchState :=
  { acc := ["x"], quota := ⟨0, 9500⟩, detailsCache := fun _ => none
    log := [] }

/-- C4 witness environment: the remote search would still return a fresh
passing candidate `y`. -/
def envC4w : SearchEnv :=
  { cfg := {}
    usedVideos := []
    searchOracle := fun _ _ => ["y"]
    detailsOracle := fun _ => some detailsC4
    now := 1000
    maxResults := 10 }

/-- C5 stale cache: one entry under key `q`, created at time 0. -/
def staleSearchCache : String → Option (List String × Int) :=
  fun k => if k = "q" then some (["v1"], 0) else none

/-- C8 witness ledger: no usage recorded anywhere. -/
def dataC8 : QuotaData := fun _ _ => 0

/-- C3 probe: every probed credential reports an invalid-credential
error. -/
def probeC3 : String → Option String := fun _ => some "API key invalid"

/-- C6 witness probe: credential `b` is invalid, everything else reports
quota exhaustion. -/
def probeC6 : String → Option String :=
  fun k => if k = "b" then some "invalid API key" else some "quota exceeded"


/-! ## Helper lemmas -/

/-- Lemma: `dropWhile` is the identity when the predicate fails on every
element. -/
theorem dropWhile_eq_self_of_all {α : Type} (p : α → Bool) (l : List α)
    (h : ∀ c ∈ l, p c = false) : l.dropWhile p = l := by
  cases l with
  | nil => rfl
  | cons a l => rw [List.dropWhile_cons, if_neg (by simp [h a])]

/-- Lemma: `get_usage` over `n + 1` days adds the bucket `n` days back. -/
theorem get_usage_succ (data : QuotaData) (key : String) (today : Int)
    (n : Nat) :
    get_usage data key today (n + 1) =
      get_usage data key today n + data key (today - n) := by
  unfold get_usage
  rw [List.range_succ, List.foldl_append]
  rfl

/-- Lemma: `get_usage` over one day is exactly the bucket of `today`. -/
theorem get_usage_one (data : QuotaData) (key : String) (today : Int) :
    get_usage data key today 1 = data key today := by
  show (0 : Int) + data key (today - ((0 : Nat) : Int)) = data key today
  norm_num

/-- Recording a batch of costs accumulates their sum onto the bucket. -/
theorem recordAll_self (data : QuotaData) (key : String) (costs : List Int)
    (today : Int) :
    recordAll data key costs today key today = data key today + costs.sum := by
  induction costs generalizing data with
  | nil => simp [recordAll]
  | cons c cs ih =>
    show recordAll (record_usage data key c today) key cs today key today = _
    rw [ih, List.sum_cons]
    simp [record_usage]
    omega

/-! ## Claim C7 -/

/-- Claim C7: playlist URL construction — the empty list yields the empty
string, a singleton yields the single-video watch URL carrying exactly
that identifier, and two or more identifiers yield the batch
`watch_videos` URL with the identifiers joined by commas in the given
order (no de-duplication and no reordering). -/
theorem c7_playlist_url_shape :
    create_youtube_playlist_url [] = "" ∧
    (∀ v : String, create_youtube_playlist_url [v] =
        "https://www.youtube.com/watch?v=" ++ v) ∧
    (∀ ids : List String, 2 ≤ ids.length →
        create_youtube_playlist_url ids =
          "https://www.youtube.com/watch_videos?video_ids=" ++
            String.intercalate "," ids) := by
  refine ⟨rfl, fun v => rfl, fun ids h => ?_⟩
  unfold create_youtube_playlist_url
  rw [if_neg (by omega), if_pos (by omega)]

/-- Witness for C7 at the inputs named by the spec: one item `v1` and the
three-item list `a, b, c`. -/
theorem c7_witness :
    create_youtube_playlist_url ["v1"] =
      "https://www.youtube.com/watch?v=" ++ "v1" ∧
    create_youtube_playlist_url ["a", "b", "c"] =
      "https://www.youtube.com/watch_videos?video_ids=" ++
        String.intercalate "," ["a", "b", "c"] :=
  ⟨c7_playlist_url_shape.2.1 "v1",
   c7_playlist_url_shape.2.2 ["a", "b", "c"] (by decide)⟩

/-! ## Claim C9 -/

/-- Claim C9: when at least 24 hours have elapsed since the stored reset
instant, `check_quota` resets the counter to 0 and answers `true` without
charging the requested units; and whenever `check_quota` answers `false`
the quota state is left unchanged. -/
theorem c9_check_quota_reset_and_failure (st : QuotaState) (now u : Int) :
    (24 * 60 * 60 ≤ now - st.lastReset →
        check_quota st now u = (true, ⟨now, 0⟩)) ∧
    ((check_quota st now u).1 = false → (check_quota st now u).2 = st) := by
  constructor
  · intro h
    unfold check_quota
    rw [if_pos h]
  · intro h
    unfold check_quota at h ⊢
    by_cases h1 : 24 * 60 * 60 ≤ now - st.lastReset
    · rw [if_pos h1] at h
      simp at h
    · rw [if_neg h1] at h ⊢
      by_cases h2 : 9500 < st.quotaUsed + u
      · rw [if_pos h2]
      · rw [if_neg h2] at h
        simp at h

/-- Witness for C9: a reset 100,000 seconds after the stored instant, and
a rejected request leaving the state untouched. -/
theorem c9_witness :
    check_quota ⟨0, 5⟩ 100000 1 = (true, ⟨100000, 0⟩) ∧
    (check_quota ⟨100000, 9500⟩ 100500 1).2 = ⟨100000, 9500⟩ :=
  ⟨(c9_check_quota_reset_and_failure ⟨0, 5⟩ 100000 1).1 (by decide),
   (c9_check_quota_reset_and_failure ⟨100000, 9500⟩ 100500 1).2 (by decide)⟩

/-! ## Claim C5 -/

/-- Claim C5, amended: on the timestamp-checked read paths (video details,
channel resolution, and the pre-flight cache check of the advanced search — all
instances of `lookupValid`), a stored entry is returned only while
`now - timestamp < cache_duration`, and an entry at or past the lifetime
reads as `none`, exactly like an absent entry.  The error-recovery read
path of the advanced search (`fallbackCacheLookup`) is exempted by the
counterexample below. -/
theorem c5_lazy_expiry_primary_reads {α : Type}
    (c : String → Option (α × Int)) (key : String) (now : Int) :
    (∀ v : α, lookupValid c key now = some v →
        ∃ ts : Int, c key = some (v, ts) ∧ now - ts < cache_duration) ∧
    (∀ (v : α) (ts : Int), c key = some (v, ts) →
        cache_duration ≤ now - ts → lookupValid c key now = none) := by
  constructor
  · intro v hv
    unfold lookupValid at hv
    split at hv
    · rename_i w ts heq
      split at hv
      · rename_i ht
        cases hv
        exact ⟨ts, heq, ht⟩
      · cases hv
    · cases hv
  · intro v ts hc ht
    unfold lookupValid
    rw [hc]
    dsimp only
    rw [if_neg (by omega)]

/-- Counterexample to C5 as stated: the error-recovery read path of the
advanced search (youtube_manager.py lines 1019-1024) performs no timestamp
check — an entry two full lifetimes old, which the checked read paths
treat as absent, is still returned there. -/
theorem c5_counterexample :
    staleSearchCache "q" = some (["v1"], 0) ∧
    cache_duration ≤ (172800 : Int) - 0 ∧
    lookupValid staleSearchCache "q" 172800 = none ∧
    fallbackCacheLookup staleSearchCache "q" = some ["v1"] := by
  decide

/-- Witness for the amended C5: the stale entry reads as a miss on the
checked path. -/
theorem c5_witness :
    lookupValid staleSearchCache "q" 172800 = none :=
  (c5_lazy_expiry_primary_reads staleSearchCache "q" 172800).2 ["v1"] 0
    (by decide) (by decide)

/-! ## Claim C8 -/

/-- Claim C8: with non-negative recorded costs and no intervening cleanup,
`get_usage` is monotone in the window size, and the one-day usage bounds
every single cost recorded for that credential on the current day. -/
theorem c8_usage_monotone (data : QuotaData) (key : String) (today : Int)
    (days : Nat) (hdays : 1 ≤ days) (hnn : ∀ d : Int, 0 ≤ data key d)
    (costs : List Int) (hcosts : ∀ c ∈ costs, 0 ≤ c) :
    get_usage data key today (days - 1) ≤ get_usage data key today days ∧
    ∀ c ∈ costs, c ≤ get_usage (recordAll data key costs today) key today 1 := by
  constructor
  · obtain ⟨n, rfl⟩ : ∃ n, days = n + 1 := ⟨days - 1, by omega⟩
    rw [Nat.add_sub_cancel, get_usage_succ]
    have := hnn (today - n)
    omega
  · intro c hc
    rw [get_usage_one, recordAll_self]
    have h1 : c ≤ costs.sum := List.single_le_sum hcosts c hc
    have h2 := hnn today
    omega

/-- Witness for C8 at the all-zero ledger with recorded costs 3 and 5. -/
theorem c8_witness :
    get_usage dataC8 "k" 0 0 ≤ get_usage dataC8 "k" 0 1 ∧
    3 ≤ get_usage (recordAll dataC8 "k" [3, 5] 0) "k" 0 1 := by
  have h := c8_usage_monotone dataC8 "k" 0 1 (by decide)
    (fun d => le_refl 0) [3, 5] (by decide)
  exact ⟨h.1, h.2 3 (by decide)⟩

/-! ## Claim C10 -/

/-- A decimal digit is neither `P` nor `T`. -/
theorem digit_not_PT (c : Char) (h : c.isDigit = true) :
    (c == 'P' || c == 'T') = false := by
  cases hp : c == 'P' with
  | true =>
    have : c = 'P' := eq_of_beq hp
    subst this
    cases h
  | false =>
    cases ht : c == 'T' with
    | true =>
      have : c = 'T' := eq_of_beq ht
      subst this
      cases h
    | false => rfl

/-- Stripping `P`/`T` from a string of the form `PT` + body, where the
body holds no `P` or `T`, removes exactly the leading `PT`. -/
theorem stripPT_PT_body (body : List Char)
    (h : ∀ c ∈ body, (c == 'P' || c == 'T') = false) :
    stripPT (String.mk ('P' :: 'T' :: body)) = String.mk body := by
  unfold stripPT
  have h1 : ('P' :: 'T' :: body).dropWhile (fun c => c == 'P' || c == 'T') =
      body := by
    rw [List.dropWhile_cons, if_pos (by decide), List.dropWhile_cons,
      if_pos (by decide), dropWhile_eq_self_of_all _ _ h]
  have h2 : body.reverse.dropWhile (fun c => c == 'P' || c == 'T') =
      body.reverse :=
    dropWhile_eq_self_of_all _ _ (by
      intro c hc
      exact h c (List.mem_reverse.1 hc))
  show String.mk
      (((String.data ⟨'P' :: 'T' :: body⟩).dropWhile _).reverse.dropWhile
          _).reverse = _
  rw [show String.data ⟨'P' :: 'T' :: body⟩ = 'P' :: 'T' :: body from rfl,
    h1, h2, List.reverse_reverse]

/-- Folding `durStep` over a digit block only updates the accumulator,
continuing the pending value. -/
theorem foldl_durStep_digits (d : List Char)
    (hd : ∀ c ∈ d, c.isDigit = true) (st : DurState) :
    d.foldl durStep st =
      ⟨st.hours, st.minutes, st.seconds,
        if d.isEmpty then st.num
        else some (digitsValFrom (st.num.getD 0) d)⟩ := by
  induction d generalizing st with
  | nil => rfl
  | cons c d ih =>
    rw [List.foldl_cons]
    have hc : c.isDigit = true := hd c (by simp)
    have hstep : durStep st c =
        { st with num := some (10 * st.num.getD 0 + (c.toNat - 48)) } := by
      unfold durStep
      rw [if_pos hc]
    rw [hstep, ih (fun x hx => hd x (List.mem_cons_of_mem c hx))]
    cases hde : d.isEmpty with
    | true =>
      have : d = [] := by
        cases d with
        | nil => rfl
        | cons a l => cases hde
      subst this
      rfl
    | false => rfl

/-- Folding `durStep` over the optional hours component of the C10 grammar
writes the component value into `hours` and clears the accumulator. -/
theorem foldl_durStep_hours (b : Bool) (d : List Char)
    (hd : ∀ c ∈ d, c.isDigit = true) (st : DurState) (hnum : st.num = none) :
    (cond b (d ++ ['H']) []).foldl durStep st =
      ⟨cond b (digitsVal d) st.hours, st.minutes, st.seconds, none⟩ := by
  cases b with
  | false =>
    obtain ⟨h, m, s, n⟩ := st
    cases hnum
    rfl
  | true =>
    rw [cond, cond, List.foldl_append, foldl_durStep_digits d hd st]
    show durStep _ 'H' = _
    unfold durStep
    rw [if_neg (by decide), if_pos rfl]
    cases hde : d.isEmpty with
    | true =>
      have : d = [] := by
        cases d with
        | nil => rfl
        | cons a l => cases hde
      subst this
      simp [hnum, digitsVal, digitsValFrom]
    | false =>
      simp [hde, hnum, digitsVal]

/-- Same as `foldl_durStep_hours` for the minutes component. -/
theorem foldl_durStep_minutes (b : Bool) (d : List Char)
    (hd : ∀ c ∈ d, c.isDigit = true) (st : DurState) (hnum : st.num = none) :
    (cond b (d ++ ['M']) []).foldl durStep st =
      ⟨st.hours, cond b (digitsVal d) st.minutes, st.seconds, none⟩ := by
  cases b with
  | false =>
    obtain ⟨h, m, s, n⟩ := st
    cases hnum
    rfl
  | true =>
    rw [cond, cond, List.foldl_append, foldl_durStep_digits d hd st]
    show durStep _ 'M' = _
    unfold durStep
    rw [if_neg (by decide), if_neg (by decide), if_pos rfl]
    cases hde : d.isEmpty with
    | true =>
      have : d = [] := by
        cases d with
        | nil => rfl
        | cons a l => cases hde
      subst this
      simp [hnum, digitsVal, digitsValFrom]
    | false =>
      simp [hde, hnum, digitsVal]

/-- Same as `foldl_durStep_hours` for the seconds component. -/
theorem foldl_durStep_seconds (b : Bool) (d : List Char)
    (hd : ∀ c ∈ d, c.isDigit = true) (st : DurState) (hnum : st.num = none) :
    (cond b (d ++ ['S']) []).foldl durStep st =
      ⟨st.hours, st.minutes, cond b (digitsVal d) st.seconds, none⟩ := by
  cases b with
  | false =>
    obtain ⟨h, m, s, n⟩ := st
    cases hnum
    rfl
  | true =>
    rw [cond, cond, List.foldl_append, foldl_durStep_digits d hd st]
    show durStep _ 'S' = _
    unfold durStep
    rw [if_neg (by decide), if_neg (by decide), if_neg (by decide),
      if_pos rfl]
    cases hde : d.isEmpty with
    | true =>
      have : d = [] := by
        cases d with
        | nil => rfl
        | cons a l => cases hde
      subst this
      simp [hnum, digitsVal, digitsValFrom]
    | false =>
      simp [hde, hnum, digitsVal]

/-- Claim C10: on every duration string of the shape
`PT-hours-H-minutes-M-seconds-S` with non-negative decimal components, any
of which may be absent, `parse_iso8601_duration` returns exactly
`hours * 3600 + minutes * 60 + seconds`, absent components counting as
zero (and, the model being a total function, no exception is raised). -/
theorem c10_parse_iso8601_grammar (bh bm bs : Bool) (dh dm ds : List Char)
    (hh : ∀ c ∈ dh, c.isDigit = true) (hm : ∀ c ∈ dm, c.isDigit = true)
    (hs : ∀ c ∈ ds, c.isDigit = true) :
    parse_iso8601_duration (mkDuration bh dh bm dm bs ds) =
      (cond bh (digitsVal dh) 0) * 3600 + (cond bm (digitsVal dm) 0) * 60 +
        (cond bs (digitsVal ds) 0) := by
  have hpart : ∀ (L : Char) (b : Bool) (d : List Char),
      (∀ c ∈ d, c.isDigit = true) → (L == 'P' || L == 'T') = false →
      ∀ c ∈ cond b (d ++ [L]) [], (c == 'P' || c == 'T') = false := by
    intro L b d hdig hL c hc
    cases b with
    | false => cases hc
    | true =>
      rw [cond] at hc
      rcases List.mem_append.1 hc with h1 | h1
      · exact digit_not_PT c (hdig c h1)
      · rw [List.mem_singleton.1 h1]
        exact hL
  have hbody : ∀ c ∈ (cond bh (dh ++ ['H']) []) ++ (cond bm (dm ++ ['M']) [])
      ++ (cond bs (ds ++ ['S']) []), (c == 'P' || c == 'T') = false := by
    intro c hc
    rcases List.mem_append.1 hc with h1 | h1
    · rcases List.mem_append.1 h1 with h2 | h2
      · exact hpart 'H' bh dh hh (by decide) c h2
      · exact hpart 'M' bm dm hm (by decide) c h2
    · exact hpart 'S' bs ds hs (by decide) c h1
  unfold parse_iso8601_duration mkDuration
  rw [stripPT_PT_body _ hbody]
  show (((cond bh (dh ++ ['H']) [] ++ cond bm (dm ++ ['M']) []) ++
      cond bs (ds ++ ['S']) []).foldl durStep ⟨0, 0, 0, none⟩).hours * 3600 +
      _ * 60 + _ = _
  rw [List.foldl_append, List.foldl_append,
    foldl_durStep_hours bh dh hh ⟨0, 0, 0, none⟩ rfl,
    foldl_durStep_minutes bm dm hm _ rfl,
    foldl_durStep_seconds bs ds hs _ rfl]

/-- Witness for C10 at `PT1H2M3S`. -/
theorem c10_witness :
    parse_iso8601_duration (mkDuration true ['1'] true ['2'] true ['3']) =
      3723 :=
  (c10_parse_iso8601_grammar true true true ['1'] ['2'] ['3']
      (by decide) (by decide) (by decide)).trans (by decide)

/-! ## Search-loop lemmas -/

/-- Lemma: `get_video_details` never changes the accepted-id accumulator. -/
theorem get_video_details_acc (env : SearchEnv) (st : SearchState)
    (vid : String) : ((get_video_details env st vid).2).acc = st.acc := by
  unfold get_video_details
  split
  · rfl
  · split
    · rfl
    · split
      · rfl
      · rfl

/-- Lemma: `get_video_details` leaves every other cache key unchanged. -/
theorem get_video_details_cache_ne (env : SearchEnv) (st : SearchState)
    (vid k : String) (hk : k ≠ vid) :
    ((get_video_details env st vid).2).detailsCache k =
      st.detailsCache k := by
  unfold get_video_details
  split
  · rfl
  · split
    · rfl
    · split
      · rfl
      · simp [hk]

/-- A cache entry for the fetched id after `get_video_details` either was
already stored or records the details given by the oracle. -/
theorem get_video_details_cache_self (env : SearchEnv) (st : SearchState)
    (vid : String) (d : VideoDetails) (ts : Int)
    (h : ((get_video_details env st vid).2).detailsCache vid = some (d, ts)) :
    st.detailsCache vid = some (d, ts) ∨ env.detailsOracle vid = some d := by
  unfold get_video_details at h
  split at h
  · left; exact h
  · split at h
    · left; exact h
    · split at h
      · left; exact h
      · rename_i d1 heq
        simp at h
        right
        rw [heq, h.1]

/-- Details returned by `get_video_details` come from a valid cache entry
or from the remote oracle. -/
theorem get_video_details_sources (env : SearchEnv) (st : SearchState)
    (vid : String) (d : VideoDetails)
    (h : (get_video_details env st vid).1 = some d) :
    lookupValid st.detailsCache vid env.now = some d ∨
      env.detailsOracle vid = some d := by
  unfold get_video_details at h
  split at h
  · rename_i d1 heq
    cases h
    left
    exact heq
  · split at h
    · cases h
    · split at h
      · cases h
      · rename_i d1 heq
        cases h
        right
        exact heq

/-- An id present in the used-videos ledger is never newly accepted by the
candidate loop of `smart_search`. -/
theorem processItems_not_used (env : SearchEnv) (items : List String)
    (st : SearchState) (vid : String) (hused : vid ∈ env.usedVideos)
    (hacc : vid ∉ st.acc) : vid ∉ (processItems env items st).acc := by
  induction items generalizing st with
  | nil => exact hacc
  | cons v rest ih =>
    unfold processItems
    split
    · exact hacc
    · split
      · exact ih st hacc
      · rename_i hguard
        have hvne : v ≠ vid := by
          intro he
          exact hguard (Or.inl (he ▸ hused))
        split
        · rename_i st1 heq
          apply ih
          have ha := get_video_details_acc env st v
          rw [heq] at ha
          rw [show st1.acc = st.acc from ha]
          exact hacc
        · rename_i d st1 heq
          have ha := get_video_details_acc env st v
          rw [heq] at ha
          have hacc1 : vid ∉ st1.acc := by
            rw [show st1.acc = st.acc from ha]
            exact hacc
          split
          · exact ih st1 hacc1
          · split
            · exact ih st1 hacc1
            · split
              · exact ih st1 hacc1
              · apply ih
                intro hmem
                rcases List.mem_append.1 hmem with h1 | h1
                · exact hacc1 h1
                · exact hvne (List.mem_singleton.1 h1).symm

/-- Lifting of `processItems_not_used` through the order loop. -/
theorem processOrders_not_used (env : SearchEnv) (term : String)
    (orders : List String) (st : SearchState) (vid : String)
    (hused : vid ∈ env.usedVideos) (hacc : vid ∉ st.acc) :
    vid ∉ (processOrders env term orders st).acc := by
  induction orders generalizing st with
  | nil => exact hacc
  | cons o rest ih =>
    unfold processOrders
    split
    · exact hacc
    · exact ih _ (processItems_not_used env _ _ vid hused hacc)

/-- Lifting of `processItems_not_used` through the term loop. -/
theorem processTerms_not_used (env : SearchEnv) (terms : List String)
    (st : SearchState) (vid : String) (hused : vid ∈ env.usedVideos)
    (hacc : vid ∉ st.acc) : vid ∉ (processTerms env terms st).acc := by
  induction terms generalizing st with
  | nil => exact hacc
  | cons t rest ih =>
    unfold processTerms
    split
    · exact hacc
    · exact ih _ (processOrders_not_used env t searchOrders st vid hused hacc)

/-! ## Claim C2 -/

/-- Claim C2, amended to the multi-term smart search: an identifier present
in the used-videos ledger at the start of the run never appears in
the accepted result set of `smart_search`, even when every content filter would
accept it.  The advanced single-term search does not consult the ledger —
see the counterexample. -/
theorem c2_smart_search_dedup (env : SearchEnv) (terms : List String)
    (st : SearchState) (vid : String) (hused : vid ∈ env.usedVideos)
    (hstart : st.acc = []) : vid ∉ (smart_search env terms st).acc := by
  apply processTerms_not_used env terms st vid hused
  rw [hstart]
  exact List.not_mem_nil vid

/-- Witness for the amended C2: the ledger holds `u`, the remote search
offers `u` with filter-passing details, and the run still rejects it. -/
theorem c2_witness :
    "u" ∉ (smart_search envC2w ["t"] stEmpty).acc :=
  c2_smart_search_dedup envC2w ["t"] stEmpty "u" (by decide) rfl

/-- Counterexample to C2 as stated: the advanced single-term search loop
(youtube_manager.py lines 887-923) accepts the identifier `u1` even though
`u1` is in the used-videos ledger, because that loop performs no ledger
membership test. -/
theorem c2_counterexample :
    "u1" ∈ envC2.usedVideos ∧
    (advancedProcess envC2 0 none ["u1"] stC2).acc = ["u1"] := by
  constructor
  · decide
  · decide

/-! ## Claim C1 -/

/-- Cache-entry preservation for the C1 invariant: after any
`get_video_details` call, every details record cached under `vid` still has
an excluded title, provided the oracle record for `vid` does and the old
cached one did. -/
theorem get_video_details_excluded (env : SearchEnv) (st : SearchState)
    (vid v : String)
    (ho : ∀ d, env.detailsOracle vid = some d →
        hasExcludedKeyword env.cfg d.title = true)
    (hc : ∀ (d : VideoDetails) (ts : Int), st.detailsCache vid = some (d, ts) →
        hasExcludedKeyword env.cfg d.title = true) :
    ∀ (d : VideoDetails) (ts : Int),
      ((get_video_details env st v).2).detailsCache vid = some (d, ts) →
        hasExcludedKeyword env.cfg d.title = true := by
  intro d ts h
  by_cases hv : v = vid
  · subst hv
    rcases get_video_details_cache_self env st v d ts h with h1 | h1
    · exact hc d ts h1
    · exact ho d h1
  · rw [get_video_details_cache_ne env st v vid (fun he => hv he.symm)] at h
    exact hc d ts h

/-- An id whose visible details (cached or from the oracle) always carry an
excluded title is never newly accepted by the candidate loop. -/
theorem processItems_excluded (env : SearchEnv) (items : List String)
    (st : SearchState) (vid : String)
    (ho : ∀ d, env.detailsOracle vid = some d →
        hasExcludedKeyword env.cfg d.title = true)
    (hc : ∀ (d : VideoDetails) (ts : Int), st.detailsCache vid = some (d, ts) →
        hasExcludedKeyword env.cfg d.title = true)
    (hacc : vid ∉ st.acc) :
    (∀ (d : VideoDetails) (ts : Int),
        ((processItems env items st).detailsCache vid = some (d, ts)) →
          hasExcludedKeyword env.cfg d.title = true) ∧
      vid ∉ (processItems env items st).acc := by
  induction items generalizing st with
  | nil => exact ⟨hc, hacc⟩
  | cons v rest ih =>
    unfold processItems
    split
    · exact ⟨hc, hacc⟩
    · split
      · exact ih st hc hacc
      · split
        · rename_i st1 heq
          have hc1 := get_video_details_excluded env st vid v ho hc
          rw [heq] at hc1
          have ha := get_video_details_acc env st v
          rw [heq] at ha
          exact ih st1 hc1 (by rw [show st1.acc = st.acc from ha]; exact hacc)
        · rename_i d st1 heq
          have hc1 := get_video_details_excluded env st vid v ho hc
          rw [heq] at hc1
          have ha := get_video_details_acc env st v
          rw [heq] at ha
          have hacc1 : vid ∉ st1.acc := by
            rw [show st1.acc = st.acc from ha]
            exact hacc
          split
          · exact ih st1 hc1 hacc1
          · split
            · exact ih st1 hc1 hacc1
            · split
              · exact ih st1 hc1 hacc1
              · rename_i hdur hexcl hind
                have hvne : v ≠ vid := by
                  intro he
                  subst he
                  have hd := get_video_details_sources env st v d
                  rw [heq] at hd
                  rcases hd rfl with h1 | h1
                  · obtain ⟨ts, hts, _⟩ :=
                      (c5_lazy_expiry_primary_reads st.detailsCache v
                        env.now).1 d h1
                    exact hexcl (hc d ts hts)
                  · exact hexcl (ho d h1)
                refine ih { st1 with acc := st1.acc ++ [v] }
                  (fun d1 ts1 h1 => hc1 d1 ts1 h1) ?_
                intro hmem
                rcases List.mem_append.1 hmem with h1 | h1
                · exact hacc1 h1
                · exact hvne (List.mem_singleton.1 h1).symm

/-- Lifting of `processItems_excluded` through the order loop. -/
theorem processOrders_excluded (env : SearchEnv) (term : String)
    (orders : List String) (st : SearchState) (vid : String)
    (ho : ∀ d, env.detailsOracle vid = some d →
        hasExcludedKeyword env.cfg d.title = true)
    (hc : ∀ (d : VideoDetails) (ts : Int), st.detailsCache vid = some (d, ts) →
        hasExcludedKeyword env.cfg d.title = true)
    (hacc : vid ∉ st.acc) :
    (∀ (d : VideoDetails) (ts : Int),
        ((processOrders env term orders st).detailsCache vid = some (d, ts)) →
          hasExcludedKeyword env.cfg d.title = true) ∧
      vid ∉ (processOrders env term orders st).acc := by
  induction orders generalizing st with
  | nil => exact ⟨hc, hacc⟩
  | cons o rest ih =>
    unfold processOrders
    split
    · exact ⟨hc, hacc⟩
    · have h1 := processItems_excluded env (env.searchOracle term o)
        { st with log := st.log ++ [RemoteCall.searchList term o] } vid
        ho hc hacc
      exact ih _ h1.1 h1.2

/-- Lifting of `processItems_excluded` through the term loop. -/
theorem processTerms_excluded (env : SearchEnv) (terms : List String)
    (st : SearchState) (vid : String)
    (ho : ∀ d, env.detailsOracle vid = some d →
        hasExcludedKeyword env.cfg d.title = true)
    (hc : ∀ (d : VideoDetails) (ts : Int), st.detailsCache vid = some (d, ts) →
        hasExcludedKeyword env.cfg d.title = true)
    (hacc : vid ∉ st.acc) :
    vid ∉ (processTerms env terms st).acc := by
  induction terms generalizing st with
  | nil => exact hacc
  | cons t rest ih =>
    unfold processTerms
    split
    · exact hacc
    · have h1 := processOrders_excluded env t searchOrders st vid ho hc hacc
      exact ih _ h1.1 h1.2

/-- Claim C1, amended: the exclusion test is a case-SENSITIVE substring
match — a candidate whose title (as seen through the cache or the remote
oracle) contains an excluded keyword as a case-sensitive substring is
always rejected by `smart_search`, regardless of its duration and of any
include-keyword or music-indicator matches.  The case-insensitive version
fails on the code — see the counterexample. -/
theorem c1_case_sensitive_exclusion (env : SearchEnv) (terms : List String)
    (st : SearchState) (vid : String)
    (ho : ∀ d, env.detailsOracle vid = some d →
        hasExcludedKeyword env.cfg d.title = true)
    (hc : ∀ (d : VideoDetails) (ts : Int), st.detailsCache vid = some (d, ts) →
        hasExcludedKeyword env.cfg d.title = true)
    (hacc : vid ∉ st.acc) :
    vid ∉ (smart_search env terms st).acc :=
  processTerms_excluded env terms st vid ho hc hacc

/-- Witness for the amended C1: candidate `bad` titled "hindi song mix"
(case-sensitive match of the excluded keyword "hindi") is rejected even
though its duration passes and the music indicator "mix" matches. -/
theorem c1_witness :
    "bad" ∉ (smart_search envC1w ["t"] stEmpty).acc := by
  apply c1_case_sensitive_exclusion envC1w ["t"] stEmpty "bad"
  · intro d h
    have he : envC1w.detailsOracle "bad" = some ⟨200, "hindi song mix", 7, 1, 0⟩ := by
      decide
    rw [he] at h
    cases h
    decide
  · intro d ts h
    cases h
  · decide

/-- Counterexample to C1 as stated: with the default configuration (exclude
list containing "hindi") the candidate titled "Hindi Remix Hits", with
passing duration, is ACCEPTED by `smart_search` — the substring test in the code
is case sensitive, so "hindi" does not match the title even though it is a
case-insensitive substring of it. -/
theorem c1_counterexample :
    "hindi" ∈ envC1.cfg.exclude_keywords ∧
    envC1.detailsOracle "hv" = some detailsC1 ∧
    pyIn "hindi" (pyLower detailsC1.title) = true ∧
    (smart_search envC1 ["music"] stEmpty).acc = ["hv"] := by
  refine ⟨by decide, by decide, by decide, by decide⟩

/-! ## Claim C4 -/

/-- Lemma: `check_quota` rejects without mutation when no reset is due and the
request would cross the soft ceiling. -/
theorem check_quota_exhausted (q : QuotaState) (now u : Int)
    (ht : now - q.lastReset < 24 * 60 * 60) (hq : 9500 < q.quotaUsed + u) :
    check_quota q now u = (false, q) := by
  unfold check_quota
  rw [if_neg (by omega), if_pos hq]

/-- With the quota exhausted and no reset due, `get_video_details`
answers straight from the cache lookup and leaves the state untouched: in
particular, it performs no remote call, consumes no quota and writes no
cache entry. -/
theorem get_video_details_exhausted (env : SearchEnv) (st : SearchState)
    (vid : String) (ht : env.now - st.quota.lastReset < 24 * 60 * 60)
    (hq : 9500 < st.quota.quotaUsed + 1) :
    get_video_details env st vid =
      (lookupValid st.detailsCache vid env.now, st) := by
  unfold get_video_details
  cases hl : lookupValid st.detailsCache vid env.now with
  | some d => rfl
  | none =>
    rw [check_quota_exhausted st.quota env.now 1 ht hq]

/-- With the quota exhausted, the candidate loop changes nothing but the
accumulator, and every id it still accepts is served by a valid
pre-existing cache entry. -/
theorem processItems_exhausted (env : SearchEnv) (items : List String)
    (st : SearchState) (ht : env.now - st.quota.lastReset < 24 * 60 * 60)
    (hq : 9500 < st.quota.quotaUsed + 1) :
    ∃ suffix, processItems env items st =
        { st with acc := st.acc ++ suffix } ∧
      ∀ vid ∈ suffix, ∃ d,
        lookupValid st.detailsCache vid env.now = some d := by
  induction items generalizing st with
  | nil =>
    refine ⟨[], ?_, by simp⟩
    show st = _
    cases st
    simp
  | cons v rest ih =>
    unfold processItems
    split
    · refine ⟨[], ?_, by simp⟩
      show st = _
      cases st
      simp
    · split
      · exact ih st ht hq
      · rw [get_video_details_exhausted env st v ht hq]
        cases hl : lookupValid st.detailsCache v env.now with
        | none =>
          dsimp only
          exact ih st ht hq
        | some d =>
          dsimp only
          split
          · exact ih st ht hq
          · split
            · exact ih st ht hq
            · split
              · exact ih st ht hq
              · obtain ⟨suffix, he, hall⟩ :=
                  ih { st with acc := st.acc ++ [v] } ht hq
                refine ⟨v :: suffix, ?_, ?_⟩
                · rw [he]
                  cases st
                  simp
                · intro vid hv
                  rcases List.mem_cons.1 hv with h | h
                  · subst h
                    exact ⟨d, hl⟩
                  · exact hall vid h

/-- With the quota exhausted, the order loop appends remote search
requests to the log and cache-served ids to the accumulator; nothing else
changes. -/
theorem processOrders_exhausted (env : SearchEnv) (term : String)
    (orders : List String) (st : SearchState)
    (ht : env.now - st.quota.lastReset < 24 * 60 * 60)
    (hq : 9500 < st.quota.quotaUsed + 1) :
    ∃ suffix extra, processOrders env term orders st =
        { st with acc := st.acc ++ suffix, log := st.log ++ extra } ∧
      (∀ c ∈ extra, ∃ t o, c = RemoteCall.searchList t o) ∧
      ∀ vid ∈ suffix, ∃ d,
        lookupValid st.detailsCache vid env.now = some d := by
  induction orders generalizing st with
  | nil =>
    refine ⟨[], [], ?_, by simp, by simp⟩
    show st = _
    cases st
    simp
  | cons o rest ih =>
    unfold processOrders
    split
    · refine ⟨[], [], ?_, by simp, by simp⟩
      show st = _
      cases st
      simp
    · dsimp only
      obtain ⟨suffix1, he1, hall1⟩ := processItems_exhausted env
        (env.searchOracle term o)
        { st with log := st.log ++ [RemoteCall.searchList term o] } ht hq
      rw [he1]
      obtain ⟨suffix2, extra2, he2, ha2, hv2⟩ :=
        ih { st with
              acc := st.acc ++ suffix1,
              log := st.log ++ [RemoteCall.searchList term o] } ht hq
      rw [he2]
      refine ⟨suffix1 ++ suffix2, RemoteCall.searchList term o :: extra2,
        ?_, ?_, ?_⟩
      · cases st
        simp
      · intro c hc
        rcases List.mem_cons.1 hc with h | h
        · exact ⟨term, o, h⟩
        · exact ha2 c h
      · intro vid hv
        rcases List.mem_append.1 hv with h | h
        · exact hall1 vid h
        · exact hv2 vid h

/-- With the quota exhausted, the term loop appends remote search requests
to the log and cache-served ids to the accumulator. -/
theorem processTerms_exhausted (env : SearchEnv) (terms : List String)
    (st : SearchState)
    (ht : env.now - st.quota.lastReset < 24 * 60 * 60)
    (hq : 9500 < st.quota.quotaUsed + 1) :
    ∃ suffix extra, processTerms env terms st =
        { st with acc := st.acc ++ suffix, log := st.log ++ extra } ∧
      (∀ c ∈ extra, ∃ t o, c = RemoteCall.searchList t o) ∧
      ∀ vid ∈ suffix, ∃ d,
        lookupValid st.detailsCache vid env.now = some d := by
  induction terms generalizing st with
  | nil =>
    refine ⟨[], [], ?_, by simp, by simp⟩
    show st = _
    cases st
    simp
  | cons t rest ih =>
    unfold processTerms
    split
    · refine ⟨[], [], ?_, by simp, by simp⟩
      show st = _
      cases st
      simp
    · obtain ⟨suffix1, extra1, he1, ha1, hv1⟩ := processOrders_exhausted env t
        searchOrders st ht hq
      rw [he1]
      obtain ⟨suffix2, extra2, he2, ha2, hv2⟩ :=
        ih { st with acc := st.acc ++ suffix1, log := st.log ++ extra1 }
          ht hq
      rw [he2]
      refine ⟨suffix1 ++ suffix2, extra1 ++ extra2, ?_, ?_, ?_⟩
      · cases st
        simp
      · intro c hc
        rcases List.mem_append.1 hc with h | h
        · exact ha1 c h
        · exact ha2 c h
      · intro vid hv
        rcases List.mem_append.1 hv with h | h
        · exact hv1 vid h
        · exact hv2 vid h

/-- Claim C4, amended: once `check_quota` starts failing (soft ceiling
crossed, no daily reset due), the rest of a `smart_search` run consumes no
quota, issues no further detail-fetch (`videos.list`) remote call, writes
no cache entry, and every id it still accepts is served from an
already-valid details cache entry; in particular, when the details cache
holds no valid entry, the run accepts nothing further and returns exactly
the items accepted so far — never a wiped list, and never an error (the
model is a total function).  The per-(term, order) `search.list` remote
requests, however, are still issued (they are not quota gated) — see the
counterexample for the "halts further remote calls" reading of the
original claim. -/
theorem c4_quota_exhaustion_semantics (env : SearchEnv)
    (terms : List String) (st : SearchState)
    (ht : env.now - st.quota.lastReset < 24 * 60 * 60)
    (hq : 9500 < st.quota.quotaUsed + 1) :
    (smart_search env terms st).quota = st.quota ∧
    (smart_search env terms st).detailsCache = st.detailsCache ∧
    (∃ extra, (smart_search env terms st).log = st.log ++ extra ∧
      ∀ c ∈ extra, ∃ t o, c = RemoteCall.searchList t o) ∧
    (∃ suffix, (smart_search env terms st).acc = st.acc ++ suffix ∧
      ∀ vid ∈ suffix, ∃ d,
        lookupValid st.detailsCache vid env.now = some d) ∧
    ((∀ vid, lookupValid st.detailsCache vid env.now = none) →
      (smart_search env terms st).acc = st.acc) := by
  obtain ⟨suffix, extra, he, ha, hv⟩ :=
    processTerms_exhausted env terms st ht hq
  unfold smart_search
  rw [he]
  refine ⟨rfl, rfl, ⟨extra, rfl, ha⟩, ⟨suffix, rfl, hv⟩, ?_⟩
  intro hnone
  have hs : suffix = [] := by
    cases suffix with
    | nil => rfl
    | cons a s =>
      obtain ⟨d, hd⟩ := hv a (List.mem_cons_self a s)
      rw [hnone a] at hd
      cases hd
  rw [hs]
  simp

/-- Witness for the amended C4: with `x` already accepted, the quota
counter at the ceiling and no valid cache entry, the run returns exactly
`["x"]` although the remote search would offer a fresh passing candidate
`y`. -/
theorem c4_witness :
    (smart_search envC4w ["t"] stC4w).acc = ["x"] :=
  (c4_quota_exhaustion_semantics envC4w ["t"] stC4w (by decide)
      (by decide)).2.2.2.2 (fun vid => rfl)

/-- Counterexample to C4 as stated: the quota starts failing while `v1` is
the single accepted item (counter 9,499 of 9,500 at run start, the first
details fetch consumes the last unit), the run does return exactly
`["v1"]`, but it does NOT halt further remote calls: seven more
`search.list` requests — for the remaining orders of `t1` and all orders
of `t2` — are issued after the quota is exhausted, because those calls are
not quota gated (youtube_manager.py line 408). -/
theorem c4_counterexample :
    (smart_search envC4 ["t1", "t2"] stC4).quota = ⟨0, 9500⟩ ∧
    (smart_search envC4 ["t1", "t2"] stC4).acc = ["v1"] ∧
    (smart_search envC4 ["t1", "t2"] stC4).log =
      [RemoteCall.searchList "t1" "relevance", RemoteCall.videosList "v1",
       RemoteCall.searchList "t1" "viewCount",
       RemoteCall.searchList "t1" "date",
       RemoteCall.searchList "t1" "rating",
       RemoteCall.searchList "t2" "relevance",
       RemoteCall.searchList "t2" "viewCount",
       RemoteCall.searchList "t2" "date",
       RemoteCall.searchList "t2" "rating"] := by
  refine ⟨by decide, by decide, by decide⟩

/-! ## Claims C6 and C3 -/

/-- If a member of a list misses from `eraseIdx l i`, it is the element at
index `i`. -/
theorem eq_getD_of_not_mem_eraseIdx (l : List String) (i : Nat)
    (hi : i < l.length) (k : String) (hk : k ∈ l)
    (hne : k ∉ l.eraseIdx i) : k = l.getD i "" := by
  obtain ⟨j, hj, hjk⟩ := List.getElem_of_mem hk
  by_cases hij : j = i
  · subst hij
    rw [List.getD_eq_getElem l "" hj]
    exact hjk.symm
  · exact absurd (List.mem_eraseIdx_iff_getElem.2 ⟨j, hj, hij, hjk⟩) hne

/-- In a duplicate-free list, the element at index `i` is gone from
`eraseIdx l i`. -/
theorem getD_not_mem_eraseIdx (l : List String) (i : Nat)
    (hi : i < l.length) (hnd : l.Nodup) : l.getD i "" ∉ l.eraseIdx i := by
  intro hmem
  obtain ⟨j, hj, hij, hjk⟩ := List.mem_eraseIdx_iff_getElem.1 hmem
  rw [List.getD_eq_getElem l "" hi] at hjk
  exact hij (hnd.getElem_inj_iff.1 hjk)

/-- The rotation loop only ever shrinks the credential list (order
preserved). -/
theorem rotateLoop_sublist (probe : String → Option String) (fuel : Nat) :
    ∀ (keys : List String) (idx : Nat) (tried : List String),
      (rotateLoop probe fuel keys idx tried).keys.Sublist keys := by
  induction fuel with
  | zero => intro keys idx tried; exact List.Sublist.refl _
  | succ n ih =>
    intro keys idx tried
    unfold rotateLoop
    dsimp only
    split
    · split
      · exact ih _ _ _
      · split
        · exact List.Sublist.refl _
        · split
          · split
            · exact List.eraseIdx_sublist keys _
            · exact (ih _ _ _).trans (List.eraseIdx_sublist keys _)
          · exact ih _ _ _
    · exact List.Sublist.refl _

/-- Every credential missing from the final list of the loop had its probe
classified as an invalid-credential error. -/
theorem rotateLoop_removed_invalid (probe : String → Option String)
    (fuel : Nat) :
    ∀ (keys : List String) (idx : Nat) (tried : List String) (k : String),
      k ∈ keys → k ∉ (rotateLoop probe fuel keys idx tried).keys →
      probeKind probe k = ProbeKind.invalidErr := by
  induction fuel with
  | zero => intro keys idx tried k hk hnk; exact absurd hk hnk
  | succ n ih =>
    intro keys idx tried k hk hnk
    unfold rotateLoop at hnk
    dsimp only at hnk
    split at hnk
    · rename_i hlen
      have hi1 : (idx + 1) % keys.length < keys.length :=
        Nat.mod_lt _ (by omega)
      split at hnk
      · exact ih _ _ _ k hk hnk
      · split at hnk
        · exact absurd hk hnk
        · split at hnk
          · rename_i hinv
            split at hnk
            · have := eq_getD_of_not_mem_eraseIdx keys _ hi1 k hk hnk
              rw [this]
              exact hinv
            · by_cases hmem : k ∈ keys.eraseIdx ((idx + 1) % keys.length)
              · exact ih _ _ _ k hmem hnk
              · have := eq_getD_of_not_mem_eraseIdx keys _ hi1 k hk hmem
                rw [this]
                exact hinv
          · exact ih _ _ _ k hk hnk
    · exact absurd hk hnk

/-- With distinct credentials, every tried credential whose probe was
classified invalid is absent from the final list of the loop. -/
theorem rotateLoop_tried_invalid_removed (probe : String → Option String)
    (fuel : Nat) :
    ∀ (keys : List String) (idx : Nat) (tried : List String),
      keys.Nodup →
      (∀ k ∈ tried, probeKind probe k = ProbeKind.invalidErr → k ∉ keys) →
      ∀ k ∈ (rotateLoop probe fuel keys idx tried).tried,
        probeKind probe k = ProbeKind.invalidErr →
        k ∉ (rotateLoop probe fuel keys idx tried).keys := by
  induction fuel with
  | zero => intro keys idx tried _ hinv k hk hpk; exact hinv k hk hpk
  | succ n ih =>
    intro keys idx tried hnd hinv
    unfold rotateLoop
    dsimp only
    split
    · rename_i hlen
      have hi1 : (idx + 1) % keys.length < keys.length :=
        Nat.mod_lt _ (by omega)
      split
      · exact ih _ _ _ hnd hinv
      · rename_i hfresh
        split
        · rename_i hwork
          intro k hk hpk
          rcases List.mem_append.1 hk with h1 | h1
          · exact hinv k h1 hpk
          · rw [List.mem_singleton.1 h1] at hpk
            rw [hpk] at hwork
            cases hwork
        · rename_i hnwork
          split
          · rename_i hinvp
            split
            · rename_i hzero
              intro k hk hpk
              have : keys.eraseIdx ((idx + 1) % keys.length) = [] :=
                List.length_eq_zero.1 hzero
              rw [this]
              exact List.not_mem_nil k
            · apply ih
              · exact (List.eraseIdx_sublist keys _).nodup hnd
              · intro k hk hpk
                rcases List.mem_append.1 hk with h1 | h1
                · intro hmem
                  exact hinv k h1 hpk
                    ((List.eraseIdx_sublist keys _).subset hmem)
                · rw [List.mem_singleton.1 h1]
                  exact getD_not_mem_eraseIdx keys _ hi1 hnd
          · apply ih _ _ _ hnd
            intro k hk hpk
            rcases List.mem_append.1 hk with h1 | h1
            · exact hinv k h1 hpk
            · rename_i hninv
              rw [List.mem_singleton.1 h1] at hpk
              exact absurd hpk hninv
    · exact hinv

/-- The final credential list of `rotate_api_key` is that of the loop (or
the untouched input when the single-key guard fires). -/
theorem rotate_api_key_keys (probe : String → Option String) (fuel : Nat)
    (keys : List String) (idx : Nat) :
    (rotate_api_key probe fuel keys idx).keys =
      if keys.length ≤ 1 then keys
      else (rotateLoop probe fuel keys idx []).keys := by
  unfold rotate_api_key
  split
  · rfl
  · dsimp only
    split
    · rfl
    · split
      · rfl
      · split
        · split
          · rfl
          · rfl
        · rfl

/-- The tried list of `rotate_api_key` is that of the loop (or empty when
the single-key guard fires). -/
theorem rotate_api_key_tried (probe : String → Option String) (fuel : Nat)
    (keys : List String) (idx : Nat) :
    (rotate_api_key probe fuel keys idx).tried =
      if keys.length ≤ 1 then []
      else (rotateLoop probe fuel keys idx []).tried := by
  unfold rotate_api_key
  split
  · rfl
  · dsimp only
    split
    · rfl
    · split
      · rfl
      · split
        · split
          · rfl
          · rfl
        · rfl

/-- Claim C6: across any `rotate_api_key` call on a duplicate-free
credential list, the surviving list is a sublist of the original; every
credential that disappeared had its probe classified as an
invalid-credential error (so quota-exhaustion and other transient errors
never remove a credential); and conversely every probed credential whose
probe reported invalidity is absent from the surviving list. -/
theorem c6_shrink_only_on_invalid (probe : String → Option String)
    (fuel : Nat) (keys : List String) (idx : Nat) (hnd : keys.Nodup) :
    ((rotate_api_key probe fuel keys idx).keys.Sublist keys) ∧
    (∀ k ∈ keys, k ∉ (rotate_api_key probe fuel keys idx).keys →
        probeKind probe k = ProbeKind.invalidErr) ∧
    (∀ k ∈ (rotate_api_key probe fuel keys idx).tried,
        probeKind probe k = ProbeKind.invalidErr →
        k ∉ (rotate_api_key probe fuel keys idx).keys) := by
  rw [rotate_api_key_keys, rotate_api_key_tried]
  by_cases hg : keys.length ≤ 1
  · rw [if_pos hg, if_pos hg]
    refine ⟨List.Sublist.refl _, ?_, ?_⟩
    · intro k hk hnk
      exact absurd hk hnk
    · intro k hk
      exact absurd hk (List.not_mem_nil k)
  · rw [if_neg hg, if_neg hg]
    refine ⟨rotateLoop_sublist probe fuel keys idx [], ?_, ?_⟩
    · intro k hk hnk
      exact rotateLoop_removed_invalid probe fuel keys idx [] k hk hnk
    · exact rotateLoop_tried_invalid_removed probe fuel keys idx [] hnd
        (fun k hk => absurd hk (List.not_mem_nil k))

/-- Witness for C6: probing the two-key ring `a, b` from index 0, `b` is
reported invalid and removed, and the judgement that the probe of `b` was
invalid-classified is recovered from the theorem. -/
theorem c6_witness : probeKind probeC6 "b" = ProbeKind.invalidErr :=
  (c6_shrink_only_on_invalid probeC6 10 ["a", "b"] 0 (by decide)).2.1
    "b" (by decide) (by decide)

/-- Claim C3 (code bug): with credentials `k0, k1`, active index 1, and
`k0` probing invalid, `rotate_api_key` removes `k0`, exhausts the ring,
restores the original index 1 into the now one-element list, and the
client rebuild indexes `api_keys[1]` out of bounds — the model returns the
IndexError outcome (`ok = none`) with the restored index not a valid index
of the surviving list. -/
theorem c3_restore_index_out_of_bounds :
    rotate_api_key probeC3 10 ["k0", "k1"] 1 =
      ⟨["k1"], 1, ["k0"], none⟩ ∧
    ¬ (rotate_api_key probeC3 10 ["k0", "k1"] 1).idx <
        (rotate_api_key probeC3 10 ["k0", "k1"] 1).keys.length := by
  refine ⟨by decide, by decide⟩
